import Mathlib

/-!
Shallow embedding of `src/project_to_csv.py` (asana-tools): the estimate
extraction, task normalization, aggregation inputs, burndown construction and
startup checks, with theorems checking the specification's claims.

Numbers are modelled as rationals: the script only manipulates decimal
literals parsed by `float` and sums/differences/quotients of them.
-/

deriving instance DecidableEq for Except

namespace AsanaTools

attribute [local semireducible] Rat.add Rat.sub Rat.mul Rat.inv Rat.ofScientific

/-- Exceptions a run of the modelled fragment can raise. -/
inductive PyError where
  | zeroDivisionError
  | valueError
deriving Repr, DecidableEq

/-- Python regex class `\s` on an ASCII string. -/
def isPySpace (c : Char) : Bool :=
  c = ' ' || c = '\t' || c = '\n' || c = '\r' || c = '\x0b' || c = '\x0c'

/-- The separator class `[-:|/\s]` of `pattern_estimate`. -/
def isSepChar (c : Char) : Bool :=
  c = '-' || c = ':' || c = '|' || c = '/' || isPySpace c

/-- Numeric value of a digit string, most significant digit first. -/
def digitsVal (ds : List Char) : ℕ :=
  ds.foldl (fun n c => 10 * n + (c.toNat - '0'.toNat)) 0

/-- Value of a digit string read as a fractional part (after a dot). -/
def fracVal (ds : List Char) : ℚ :=
  (digitsVal ds : ℚ) / (10 : ℚ) ^ ds.length

/-- Python `float` on an unsigned plain decimal literal (`\d*\.?\d*` containing
at least one digit); `none` when the text is not such a literal (so for "",
"." or any stray character), modelling the `ValueError` that `float` raises.
Exotic inputs `float` would also accept (exponents, `inf`, `nan`, surrounding
whitespace) cannot reach the calls modelled here. -/
def parseUnsigned (cs : List Char) : Option ℚ :=
  let d1 := cs.takeWhile Char.isDigit
  match cs.dropWhile Char.isDigit with
  | [] => if d1.isEmpty then none else some (digitsVal d1 : ℚ)
  | '.' :: r2 =>
    let d2 := r2.takeWhile Char.isDigit
    if (r2.dropWhile Char.isDigit).isEmpty && !(d1.isEmpty && d2.isEmpty) then
      some ((digitsVal d1 : ℚ) + fracVal d2)
    else none
  | _ => none

/-- Python `float(s)` on optionally signed plain decimal literals. -/
def parsePyFloat (s : String) : Option ℚ :=
  match s.data with
  | '-' :: cs => (parseUnsigned cs).map (fun q => -q)
  | '+' :: cs => parseUnsigned cs
  | cs => parseUnsigned cs

/-- `float(s)` as an effect: a `ValueError` aborts the run. -/
def pyFloat (s : String) : Except PyError ℚ :=
  match parsePyFloat s with
  | some q => .ok q
  | none => .error .valueError

/-- First capture group `(\?|\d+\.?\d*|\.?\d+)` of `pattern_estimate`, with the
regex engine's ordered-alternative and greedy semantics (nothing mandatory
follows the group, so the greedy maximum is never backtracked). Returns the
captured text and the rest of the input. -/
def parseGroup1 : List Char → Option (String × List Char)
  | [] => none
  | c :: rest =>
    if c = '?' then some ("?", rest)
    else if c.isDigit then
      let d1 := (c :: rest).takeWhile Char.isDigit
      match (c :: rest).dropWhile Char.isDigit with
      | '.' :: r2 =>
        some (⟨d1 ++ '.' :: r2.takeWhile Char.isDigit⟩, r2.dropWhile Char.isDigit)
      | r1 => some (⟨d1⟩, r1)
    else if c = '.' then
      match rest.takeWhile Char.isDigit, rest.dropWhile Char.isDigit with
      | [], _ => none
      | d, r => some (⟨'.' :: d⟩, r)
    else none

/-- Second capture group `(\d*\.?\d*)` of `pattern_estimate`; it can capture
the empty string. -/
def parseGroup2 (cs : List Char) : String :=
  let d1 := cs.takeWhile Char.isDigit
  match cs.dropWhile Char.isDigit with
  | '.' :: r2 => ⟨d1 ++ '.' :: r2.takeWhile Char.isDigit⟩
  | _ => ⟨d1⟩

/-- `re.search(pattern_estimate, name)`: the pattern is anchored with `^` (and
the script does not set MULTILINE), so a match exists exactly when the pattern
matches at the start of the string. Returns (group 1, group 2); group 2 is
`none` when the optional separator-and-number group did not participate. -/
def matchEstimate (s : String) : Option (String × Option String) :=
  match s.data.dropWhile isPySpace with
  | '[' :: rest =>
    match parseGroup1 (rest.dropWhile isPySpace) with
    | none => none
    | some (g1, rest2) =>
      if (rest2.takeWhile isSepChar).isEmpty then some (g1, none)
      else some (g1, some (parseGroup2 (rest2.dropWhile isSepChar)))
  | _ => none

/-- `float(g or fallback)`: Python `or` yields the fallback when the captured
group is `None` or the empty string; the fallback is already a float, on which
`float` is the identity. -/
def floatOrFallback (g : Option String) (fallback : ℚ) : Except PyError ℚ :=
  match g with
  | none => .ok fallback
  | some s => if s = "" then .ok fallback else pyFloat s

/-- `tag['name'].endswith('pts')`. -/
def endsWithPts (t : String) : Bool :=
  List.isSuffixOf ['p', 't', 's'] t.data

/-- `tag['name'][:-3]`: the tag's name without its last three characters. -/
def dropLast3 (t : String) : String :=
  ⟨t.data.take (t.data.length - 3)⟩

/-- One step of the pts-tag fallback loop (lines 144-146): a tag whose name
ends in "pts" overwrites both estimate and actual with its numeric prefix;
the loop has no `break`, so a later match overwrites an earlier one. -/
def ptsTagStep (p : ℚ × ℚ) (tagName : String) : Except PyError (ℚ × ℚ) :=
  if endsWithPts tagName then
    (pyFloat (dropLast3 tagName)).bind (fun v => .ok (v, v))
  else .ok p

/-- The estimate extraction of the task loop (lines 132-146): the title
pattern first; otherwise the pts-tag loop over the task's tags; both estimate
and actual start at the configured default estimate. -/
def extract (name : String) (tags : List String) (completed : Bool)
    (default_estimate : ℚ) : Except PyError (ℚ × ℚ) :=
  match matchEstimate name with
  | some (g1, g2) =>
    (if g1 = "?" then Except.ok (0 : ℚ) else pyFloat g1).bind (fun estimated =>
      (if completed then floatOrFallback g2 estimated
       else floatOrFallback g2 0).bind (fun actual =>
        .ok (estimated, actual)))
  | none => tags.foldlM ptsTagStep (default_estimate, default_estimate)

/-- `task['name'].encode('ascii', 'replace')`: every character the ASCII codec
cannot represent is replaced (with `?`), never dropped. -/
def sanitizeAscii (s : String) : String :=
  ⟨s.data.map (fun c => if c.toNat ≤ 127 then c else '?')⟩

/-- A raw task record as the script reads it from JSON or the API (only the
fields the script touches). Timestamps and dates are modelled as calendar-day
ordinals; `dateutil.parser.parse(...).strftime(DATE_FORMAT)` keeps exactly the
calendar date of a well-formed timestamp. `assignee` is the assignee's name,
`none` when the JSON field is `null` (the script turns the `TypeError` from
`None['name']` into `None`); `due_on`/`completed_at` are `none` when absent
(the script turns the `AttributeError` from parsing `None` into `None`). -/
structure RawTask where
  name : String
  completed : Bool
  created_at : ℤ
  assignee : Option String
  due_on : Option ℤ
  completed_at : Option ℤ
  tags : List String
deriving Repr, DecidableEq

/-- One row of the task list (lines 111-129 and 168). -/
structure NormalizedTaskRow where
  assignee : Option String
  name : String
  estimated : ℚ
  actual : ℚ
  created_at : ℤ
  due_on : Option ℤ
  completed_at : Option ℤ
deriving Repr, DecidableEq

/-- The per-task normalization of the task loop: sanitize the title, tolerate
missing assignee/due/completed fields, and derive the estimate pair (the
title is sanitized before the estimate regex is applied to it, as in the
source). The only way it fails is a `ValueError` from `float` inside the
estimate extraction. -/
def normalizeTask (default_estimate : ℚ) (t : RawTask) :
    Except PyError NormalizedTaskRow :=
  (extract (sanitizeAscii t.name) t.tags t.completed default_estimate).bind
    (fun p => .ok
      { assignee := t.assignee.map sanitizeAscii
        name := sanitizeAscii t.name
        estimated := p.1
        actual := p.2
        created_at := t.created_at
        due_on := t.due_on
        completed_at := t.completed_at })

/-- One data row of burndown.csv (lines 200-206). The date, then the
estimated-remaining and actual-remaining cells (null for a future date), the
ideal cell, and the per-tag remaining cells. For a future date the source
emits `[day, None, None, linear_burn]`, a row with no per-tag cells at all,
which is why `tagCells` is a list: it is empty for future rows. -/
structure BurndownRow where
  date : ℤ
  estimatedRemaining : Option ℚ
  actualRemaining : Option ℚ
  ideal : ℚ
  tagCells : List (Option ℚ)
deriving Repr, DecidableEq

/-- The dates the `while current_date <= end_date` loop visits, in order. -/
def dateRange (start_date end_date : ℤ) : List ℤ :=
  (List.range (end_date + 1 - start_date).toNat).map (fun (i : ℕ) => start_date + (i : ℤ))

/-- The body of the burndown loop (lines 187-208), one recursive step per
date: subtract the day's completed sums from the running remaining values,
compute the linear burn (the plain total on the first day), and emit a full
row for a date at or before today and a truncated `[day, None, None, linear]`
row for a later date. -/
def burnLoop (points_estimated avg_points_per_day : ℚ) (days today : ℤ)
    (tags : List String)
    (points_completed_by_date points_completed_by_date_actual : ℤ → ℚ)
    (points_completed_by_date_tag : ℤ → String → ℚ) :
    List ℤ → ℚ → ℚ → (String → ℚ) → ℤ → List BurndownRow
  | [], _, _, _, _ => []
  | d :: ds, rem, remAct, tagRem, daysRem =>
    { date := d
      estimatedRemaining :=
        if d ≤ today then some (rem - points_completed_by_date d) else none
      actualRemaining :=
        if d ≤ today then some (remAct - points_completed_by_date_actual d)
        else none
      ideal :=
        if daysRem = days then points_estimated
        else (daysRem : ℚ) * avg_points_per_day
      tagCells :=
        if d ≤ today then
          tags.map (fun t => some (tagRem t - points_completed_by_date_tag d t))
        else [] } ::
    burnLoop points_estimated avg_points_per_day days today tags
      points_completed_by_date points_completed_by_date_actual
      points_completed_by_date_tag ds
      (rem - points_completed_by_date d)
      (remAct - points_completed_by_date_actual d)
      (fun t => tagRem t - points_completed_by_date_tag d t)
      (daysRem - 1)

/-- The burndown computation (lines 176-208): `days = (end - start).days`,
`avg_points_per_day = points_estimated / days` — a `ZeroDivisionError` when
`days == 0` — then the date loop. The returned list holds the data rows
(the header row of the CSV is constant and omitted). -/
def buildBurndown (start_date end_date today : ℤ)
    (points_estimated points_actual : ℚ) (tags : List String)
    (estimated_by_tag : String → ℚ)
    (points_completed_by_date points_completed_by_date_actual : ℤ → ℚ)
    (points_completed_by_date_tag : ℤ → String → ℚ) :
    Except PyError (List BurndownRow) :=
  if end_date - start_date = 0 then .error .zeroDivisionError
  else
    .ok (burnLoop points_estimated
      (points_estimated / ((end_date - start_date : ℤ) : ℚ))
      (end_date - start_date) today tags
      points_completed_by_date points_completed_by_date_actual
      points_completed_by_date_tag
      (dateRange start_date end_date)
      points_estimated points_actual estimated_by_tag
      (end_date - start_date))

/-- Python `round(q, 2)`: the nearest multiple of 1/100. Exact ties are
modelled as rounding half up; Python's binary-float tie behaviour differs on
a measure-zero set of inputs and no claim depends on it. -/
def pyRound2 (q : ℚ) : ℚ :=
  (round (q * 100) : ℤ) / 100

/-- Line 215: `completed_percentage = round((float(estimated_points_completed)
/ points_estimated) * 100.0, 2)` — a `ZeroDivisionError` when the total
estimate is zero. -/
def completedPercentage (estimated_points_completed points_estimated : ℚ) :
    Except PyError ℚ :=
  if points_estimated = 0 then .error .zeroDivisionError
  else .ok (pyRound2 (estimated_points_completed / points_estimated * 100))

/-- The command-line arguments the startup checks consult. An `Option String`
is `none` when the flag was not given; Python treats the empty string as
falsy, exactly like an absent value. -/
structure CliArgs where
  input : Option String
  key : Option String
  projectid : Option String
deriving Repr, DecidableEq

/-- Python truthiness of an optional string. -/
def truthy : Option String → Bool
  | none => false
  | some s => !(s == "")

/-- What a run does after the startup checks: exit early with a status code,
or go on and process the task list. -/
inductive RunOutcome where
  | exit (code : ℕ)
  | report (rows : List (Except PyError NormalizedTaskRow))
deriving Repr, DecidableEq

/-- Lines 56-69: the input/projectid check, then the API-key check, both
before any task is read or processed. -/
def startupChecks (args : CliArgs) (envKey : Option String) : Option ℕ :=
  if !truthy args.input && !truthy args.projectid then some 2
  else if truthy args.key then none
  else if truthy envKey then none
  else some 2

/-- The run prefix the modelled claims need: the startup checks, then (only
when they pass) the per-task normalization pass. -/
def runScript (args : CliArgs) (envKey : Option String)
    (default_estimate : ℚ) (tasks : List RawTask) : RunOutcome :=
  match startupChecks args envKey with
  | some code => .exit code
  | none => .report (tasks.map (normalizeTask default_estimate))

/-- Length of the burndown loop's output: one row per visited date. -/
theorem burnLoop_length (te avg : ℚ) (days today : ℤ) (tags : List String)
    (cbd cbda : ℤ → ℚ) (cbdt : ℤ → String → ℚ) :
    ∀ (ds : List ℤ) (rem remAct : ℚ) (tagRem : String → ℚ) (daysRem : ℤ),
      (burnLoop te avg days today tags cbd cbda cbdt ds rem remAct tagRem daysRem).length
        = ds.length := by
  intro ds
  induction ds with
  | nil => intro rem remAct tagRem daysRem; simp [burnLoop]
  | cons d ds ih => intro rem remAct tagRem daysRem; simp [burnLoop, ih]

/-- Closed form for the i-th row of the burndown loop. -/
theorem burnLoop_getElem? (te avg : ℚ) (days today : ℤ) (tags : List String)
    (cbd cbda : ℤ → ℚ) (cbdt : ℤ → String → ℚ) :
    ∀ (ds : List ℤ) (rem remAct : ℚ) (tagRem : String → ℚ) (daysRem : ℤ) (i : ℕ),
      (burnLoop te avg days today tags cbd cbda cbdt ds rem remAct tagRem daysRem)[i]?
        = (ds[i]?).map (fun d =>
            { date := d
              estimatedRemaining :=
                if d ≤ today then some (rem - ((ds.take (i+1)).map cbd).sum) else none
              actualRemaining :=
                if d ≤ today then some (remAct - ((ds.take (i+1)).map cbda).sum) else none
              ideal := if daysRem - i = days then te else ((daysRem - i : ℤ) : ℚ) * avg
              tagCells :=
                if d ≤ today then
                  tags.map (fun t =>
                    some (tagRem t - ((ds.take (i+1)).map (fun x => cbdt x t)).sum))
                else [] }) := by
  intro ds
  induction ds with
  | nil => intro rem remAct tagRem daysRem i; simp [burnLoop]
  | cons d ds ih =>
    intro rem remAct tagRem daysRem i
    cases i with
    | zero =>
      rw [burnLoop]
      simp
    | succ i =>
      rw [burnLoop]
      simp only [List.getElem?_cons_succ]
      rw [ih]
      cases hd : ds[i]? with
      | none => rfl
      | some d2 =>
        have hsum : ∀ (f : ℤ → ℚ),
            (((d :: ds).take (i + 1 + 1)).map f).sum
              = f d + ((ds.take (i+1)).map f).sum := by
          intro f; simp
        have hdr : daysRem - 1 - (i : ℤ) = daysRem - ((i+1 : ℕ) : ℤ) := by
          push_cast; ring
        simp only [Option.map_some']
        congr 1
        simp only [hsum, sub_sub, hdr]

theorem dateRange_length (s e : ℤ) : (dateRange s e).length = (e + 1 - s).toNat := by
  simp [dateRange]

theorem dateRange_getElem? (s e : ℤ) (i : ℕ) (h : i < (e + 1 - s).toNat) :
    (dateRange s e)[i]? = some (s + i) := by
  simp [dateRange, h]

theorem dateRange_take (s e : ℤ) (i : ℕ) (h : i < (e + 1 - s).toNat) :
    (dateRange s e).take (i + 1) = dateRange s (s + i) := by
  unfold dateRange
  rw [← List.map_take, List.take_range]
  have h1 : min (i+1) (e + 1 - s).toNat = i + 1 := by omega
  have h2 : (s + (i:ℤ) + 1 - s).toNat = i + 1 := by omega
  rw [h1, h2]

theorem mem_dateRange (s e d : ℤ) : d ∈ dateRange s e ↔ s ≤ d ∧ d ≤ e := by
  simp only [dateRange, List.mem_map, List.mem_range]
  constructor
  · rintro ⟨i, hi, rfl⟩; omega
  · intro h; exact ⟨(d - s).toNat, by omega, by omega⟩

theorem dateRange_sum_step (s : ℤ) (cbd : ℤ → ℚ) (k : ℕ) :
    ((dateRange s (s + (k+1:ℕ))).map cbd).sum
      = ((dateRange s (s + (k:ℕ))).map cbd).sum + cbd (s + k + 1) := by
  have h1 : (s + ((k+1:ℕ):ℤ) + 1 - s).toNat = k + 2 := by omega
  have h2 : (s + ((k:ℕ):ℤ) + 1 - s).toNat = k + 1 := by omega
  simp only [dateRange, h1, h2]
  rw [List.range_succ]
  simp
  ring_nf

/-- C2 (amended): over a sprint with `start < end`, with `today` at or past
the sprint end, the remaining-estimated series satisfies: the row for each
date carries total estimated minus the completed-estimated sums of all range
dates up to and including that date (so the START row already subtracts the
start date's completed sum — it equals the total only when nothing completed
on the start date); each subsequent row decreases by exactly its date's
completed-estimated sum; and the last row equals total estimated minus the
sum of completed-estimated over the whole range. -/
theorem burndown_remaining (s e today : ℤ) (te ta : ℚ) (tags : List String)
    (ebt : String → ℚ) (cbd cbda : ℤ → ℚ) (cbdt : ℤ → String → ℚ)
    (hlt : s < e) (htoday : e ≤ today) :
    ∃ rows, buildBurndown s e today te ta tags ebt cbd cbda cbdt = .ok rows ∧
      rows.length = (e - s).toNat + 1 ∧
      (rows[0]?.map BurndownRow.estimatedRemaining) = some (some (te - cbd s)) ∧
      (∀ i : ℕ, i ≤ (e - s).toNat →
        (rows[i]?.map BurndownRow.estimatedRemaining)
          = some (some (te - ((dateRange s (s + (i:ℤ))).map cbd).sum))) ∧
      (∀ i : ℕ, i < (e - s).toNat →
        ∃ q : ℚ, (rows[i]?.map BurndownRow.estimatedRemaining) = some (some q) ∧
          (rows[i+1]?.map BurndownRow.estimatedRemaining)
            = some (some (q - cbd (s + (i:ℤ) + 1)))) ∧
      (rows[(e - s).toNat]?.map BurndownRow.estimatedRemaining)
        = some (some (te - ((dateRange s e).map cbd).sum)) := by
  have hne : e - s ≠ 0 := by omega
  have hlen1 : (e + 1 - s).toNat = (e - s).toNat + 1 := by omega
  have hest : ∀ i : ℕ, i ≤ (e - s).toNat →
      ((burnLoop te (te / ((e - s : ℤ) : ℚ)) (e - s) today tags cbd cbda cbdt
          (dateRange s e) te ta ebt (e - s))[i]?.map BurndownRow.estimatedRemaining)
        = some (some (te - ((dateRange s (s + (i:ℤ))).map cbd).sum)) := by
    intro i hi
    rw [burnLoop_getElem?, dateRange_getElem? s e i (by omega),
      dateRange_take s e i (by omega)]
    have hto : s + (i:ℤ) ≤ today := by omega
    simp [hto]
  refine ⟨_, by rw [buildBurndown, if_neg hne], ?_, ?_, ?_, ?_, ?_⟩
  · rw [burnLoop_length, dateRange_length]; omega
  · have h0 := hest 0 (by omega)
    have h1 : (s + ((0:ℕ):ℤ) + 1 - s).toNat = 1 := by omega
    have h2 : ((dateRange s (s + ((0:ℕ):ℤ))).map cbd).sum = cbd s := by
      simp [dateRange, h1, List.range_succ]
    rw [h2] at h0
    exact h0
  · exact hest
  · intro i hi
    refine ⟨te - ((dateRange s (s + (i:ℤ))).map cbd).sum, hest i (by omega), ?_⟩
    rw [hest (i+1) (by omega)]
    have := dateRange_sum_step s cbd i
    push_cast at this ⊢
    rw [this]
    ring_nf
  · have h := hest (e - s).toNat (by omega)
    have he : s + (((e - s).toNat : ℕ) : ℤ) = e := by omega
    rw [he] at h
    exact h

/-- C3: over a sprint of at least two days (`start + 1 <= end`) with a
non-negative total estimate, the ideal value of the first row is exactly the
total estimate; every later row's ideal value is (days remaining after that
day) x avg_points_per_day, where avg_points_per_day is the total estimate
divided by `days = end - start` (the script's day count of the range, line
177); and the ideal value never increases from one row to the next. -/
theorem burndown_ideal (s e today : ℤ) (te ta : ℚ) (tags : List String)
    (ebt : String → ℚ) (cbd cbda : ℤ → ℚ) (cbdt : ℤ → String → ℚ)
    (hlt : s + 1 ≤ e) (hte : 0 ≤ te) :
    ∃ rows, buildBurndown s e today te ta tags ebt cbd cbda cbdt = .ok rows ∧
      rows.length = (e - s).toNat + 1 ∧
      (rows[0]?.map BurndownRow.ideal) = some te ∧
      (∀ i : ℕ, 1 ≤ i → i ≤ (e - s).toNat →
        (rows[i]?.map BurndownRow.ideal)
          = some (((e - s - (i:ℤ) : ℤ) : ℚ) * (te / ((e - s : ℤ) : ℚ)))) ∧
      (∀ i : ℕ, i < (e - s).toNat → ∀ a b : BurndownRow,
        rows[i]? = some a → rows[i+1]? = some b → b.ideal ≤ a.ideal) := by
  have hne : e - s ≠ 0 := by omega
  have hideal : ∀ i : ℕ, i ≤ (e - s).toNat →
      ((burnLoop te (te / ((e - s : ℤ) : ℚ)) (e - s) today tags cbd cbda cbdt
          (dateRange s e) te ta ebt (e - s))[i]?.map BurndownRow.ideal)
        = some (if (e - s) - (i:ℤ) = e - s then te
                else (((e - s) - (i:ℤ) : ℤ) : ℚ) * (te / ((e - s : ℤ) : ℚ))) := by
    intro i hi
    rw [burnLoop_getElem?, dateRange_getElem? s e i (by omega)]
    simp
  have hD : (0:ℚ) < ((e - s : ℤ) : ℚ) := by
    have h1 : (0:ℤ) < e - s := by omega
    exact_mod_cast h1
  have havg : 0 ≤ te / ((e - s : ℤ) : ℚ) := div_nonneg hte (le_of_lt hD)
  refine ⟨_, by rw [buildBurndown, if_neg hne], ?_, ?_, ?_, ?_⟩
  · rw [burnLoop_length, dateRange_length]; omega
  · have h0 := hideal 0 (by omega)
    rw [if_pos (by omega)] at h0
    exact h0
  · intro i h1 h2
    have h := hideal i h2
    rw [if_neg (by omega)] at h
    exact h
  · intro i hi a b ha hb
    have hA := hideal i (by omega)
    have hB := hideal (i+1) (by omega)
    rw [ha, Option.map_some'] at hA
    rw [hb, Option.map_some'] at hB
    have hA2 := Option.some.inj hA
    have hB2 := Option.some.inj hB
    rw [hA2, hB2]
    rw [if_neg (by omega)]
    by_cases h0 : i = 0
    · subst h0
      rw [if_pos (by omega)]
      have h1 : ((e - s - ((0:ℕ) + 1 : ℤ) : ℤ) : ℚ) ≤ ((e - s : ℤ) : ℚ) := by
        have : (e - s - ((0:ℕ) + 1 : ℤ) : ℤ) ≤ e - s := by omega
        exact_mod_cast this
      calc ((e - s - (((0:ℕ):ℤ) + 1) : ℤ) : ℚ) * (te / ((e - s : ℤ) : ℚ))
          ≤ ((e - s : ℤ) : ℚ) * (te / ((e - s : ℤ) : ℚ)) := by
            apply mul_le_mul_of_nonneg_right _ havg
            exact_mod_cast (by omega : (e - s - (((0:ℕ):ℤ) + 1) : ℤ) ≤ e - s)
        _ = te := by rw [mul_comm, div_mul_cancel₀ te (ne_of_gt hD)]
    · rw [if_neg (by omega)]
      apply mul_le_mul_of_nonneg_right _ havg
      have h1 : (e - s - ((i:ℤ) + 1) : ℤ) ≤ e - s - (i:ℤ) := by omega
      push_cast
      push_cast at h1
      exact_mod_cast h1

/-- C6 (amended): the burndown builder emits one data row per calendar day
from start to end inclusive when `start < end`; a zero-length sprint
(`end = start`) raises an uncaught ZeroDivisionError before any row is
produced; and when `end < start` no error is raised at all — the series is
simply empty. -/
theorem burndown_row_per_day (s e today : ℤ) (te ta : ℚ) (tags : List String)
    (ebt : String → ℚ) (cbd cbda : ℤ → ℚ) (cbdt : ℤ → String → ℚ) :
    (e < s → buildBurndown s e today te ta tags ebt cbd cbda cbdt = .ok []) ∧
    (e = s → buildBurndown s e today te ta tags ebt cbd cbda cbdt
        = .error .zeroDivisionError) ∧
    (s < e → ∃ rows, buildBurndown s e today te ta tags ebt cbd cbda cbdt
        = .ok rows ∧
      rows.length = (e - s).toNat + 1 ∧
      rows.map BurndownRow.date = dateRange s e ∧
      (∀ d : ℤ, d ∈ dateRange s e ↔ s ≤ d ∧ d ≤ e)) := by
  refine ⟨?_, ?_, ?_⟩
  · intro h
    rw [buildBurndown, if_neg (by omega)]
    have h0 : (e + 1 - s).toNat = 0 := by omega
    simp [dateRange, h0, burnLoop]
  · intro h
    rw [buildBurndown, if_pos (by omega)]
  · intro h
    refine ⟨_, by rw [buildBurndown, if_neg (by omega)], ?_, ?_, ?_⟩
    · rw [burnLoop_length, dateRange_length]; omega
    · apply List.ext_getElem?
      intro i
      rw [List.getElem?_map]
      by_cases hi : i ≤ (e - s).toNat
      · rw [burnLoop_getElem?, dateRange_getElem? s e i (by omega)]
        simp
      · have hlen : (burnLoop te (te / ((e - s : ℤ) : ℚ)) (e - s) today tags
            cbd cbda cbdt (dateRange s e) te ta ebt (e - s)).length ≤ i := by
          rw [burnLoop_length, dateRange_length]; omega
        have hlen2 : (dateRange s e).length ≤ i := by
          rw [dateRange_length]; omega
        rw [List.getElem?_eq_none hlen, List.getElem?_eq_none hlen2]
        rfl
    · intro d
      exact mem_dateRange s e d

/-- C7 (amended): in a burndown series, a row dated strictly after `today`
carries null remaining-estimated and remaining-actual and NO per-tag cells at
all (the row is truncated to `[day, None, None, linear]`; the per-tag cells
are omitted rather than emitted as nulls), while its ideal value is still
computed; a row dated at or before `today` carries all computed values,
including one cell per tag. -/
theorem burndown_future_rows (s e today : ℤ) (te ta : ℚ) (tags : List String)
    (ebt : String → ℚ) (cbd cbda : ℤ → ℚ) (cbdt : ℤ → String → ℚ)
    (rows : List BurndownRow) (i : ℕ) (r : BurndownRow)
    (hok : buildBurndown s e today te ta tags ebt cbd cbda cbdt = .ok rows)
    (hr : rows[i]? = some r) :
    r.date = s + (i:ℤ) ∧
    r.ideal = (if i = 0 then te
               else ((e - s - (i:ℤ) : ℤ) : ℚ) * (te / ((e - s : ℤ) : ℚ))) ∧
    (today < r.date →
      r.estimatedRemaining = none ∧ r.actualRemaining = none ∧
        r.tagCells = []) ∧
    (r.date ≤ today →
      r.estimatedRemaining
          = some (te - ((dateRange s (s + (i:ℤ))).map cbd).sum) ∧
      r.actualRemaining
          = some (ta - ((dateRange s (s + (i:ℤ))).map cbda).sum) ∧
      r.tagCells = tags.map (fun t =>
          some (ebt t - ((dateRange s (s + (i:ℤ))).map (fun x => cbdt x t)).sum))) := by
  have hne : e - s ≠ 0 := by
    intro h
    rw [buildBurndown, if_pos h] at hok
    exact absurd hok (by simp)
  rw [buildBurndown, if_neg hne] at hok
  have hrows := (Except.ok.inj hok).symm
  subst hrows
  rw [burnLoop_getElem?] at hr
  have hi : i < (e + 1 - s).toNat := by
    by_contra hge
    rw [List.getElem?_eq_none (by rw [dateRange_length]; omega)] at hr
    exact absurd hr (by simp)
  rw [dateRange_getElem? s e i hi, Option.map_some'] at hr
  have hr2 := (Option.some.inj hr).symm
  rw [dateRange_take s e i hi] at hr2
  have hif : ((e - s) - (i:ℤ) = e - s) = (i = 0) := by
    apply propext
    omega
  subst hr2
  refine ⟨rfl, ?_, ?_, ?_⟩
  · simp only [hif]
  · intro hf
    have hc : ¬ (s + (i:ℤ) ≤ today) := by simp only at hf; omega
    refine ⟨?_, ?_, ?_⟩ <;> simp [hc]
  · intro hp
    have hc : s + (i:ℤ) ≤ today := by simp only at hp; omega
    refine ⟨?_, ?_, ?_⟩ <;> simp [hc]

/-- C5 (amended): neither division is guarded. A zero-length sprint
(`end = start`) makes the burndown computation raise an uncaught
ZeroDivisionError (line 183), and a zero total estimate makes the completion
percentage raise an uncaught ZeroDivisionError (line 215); in every other
case each computation yields a plain numeric result, so no NaN is ever
produced — the run aborts with the exception instead of being guarded or
special-cased. -/
theorem division_by_zero_unguarded (s e today : ℤ) (te ta ec : ℚ)
    (tags : List String) (ebt : String → ℚ) (cbd cbda : ℤ → ℚ)
    (cbdt : ℤ → String → ℚ) :
    (buildBurndown s e today te ta tags ebt cbd cbda cbdt
        = .error .zeroDivisionError ↔ e = s) ∧
    (e ≠ s → ∃ rows, buildBurndown s e today te ta tags ebt cbd cbda cbdt
        = .ok rows) ∧
    (completedPercentage ec te = .error .zeroDivisionError ↔ te = 0) ∧
    (te ≠ 0 → completedPercentage ec te = .ok (pyRound2 (ec / te * 100))) := by
  refine ⟨?_, ?_, ?_, ?_⟩
  · constructor
    · intro h
      by_contra hne
      rw [buildBurndown, if_neg (by omega)] at h
      exact absurd h (by simp)
    · intro h
      rw [buildBurndown, if_pos (by omega)]
  · intro h
    exact ⟨_, by rw [buildBurndown, if_neg (by omega)]⟩
  · constructor
    · intro h
      by_contra hne
      rw [completedPercentage, if_neg hne] at h
      exact absurd h (by simp)
    · intro h
      rw [completedPercentage, if_pos h]
  · intro h
    rw [completedPercentage, if_neg h]

/-- The fractional part of a parsed decimal is non-negative. -/
theorem fracVal_nonneg (ds : List Char) : 0 ≤ fracVal ds := by
  unfold fracVal
  apply div_nonneg (Nat.cast_nonneg _)
  positivity

/-- `float` on an unsigned literal returns a non-negative value. -/
theorem parseUnsigned_nonneg (cs : List Char) (q : ℚ)
    (h : parseUnsigned cs = some q) : 0 ≤ q := by
  unfold parseUnsigned at h
  split at h
  · dsimp only at h
    split at h
    · exact absurd h (by simp)
    · rw [← Option.some.inj h]; exact Nat.cast_nonneg _
  · dsimp only at h
    split at h
    · rw [← Option.some.inj h]
      exact add_nonneg (Nat.cast_nonneg _) (fracVal_nonneg _)
    · exact absurd h (by simp)
  · exact absurd h (by simp)

/-- `float` on a string that does not start with a minus sign returns a
non-negative value. -/
theorem parsePyFloat_nonneg (s : String) (q : ℚ)
    (hhead : s.data.head? ≠ some '-') (h : parsePyFloat s = some q) :
    0 ≤ q := by
  unfold parsePyFloat at h
  split at h
  · next cs heq => exact absurd (by rw [heq]; rfl) hhead
  · next cs heq => exact parseUnsigned_nonneg _ _ h
  · next h1 h2 => exact parseUnsigned_nonneg _ _ h

/-- The text captured by group 1 never starts with a minus sign: it is "?",
or starts with a digit, or starts with a dot. -/
theorem parseGroup1_head (cs : List Char) (g : String) (r : List Char)
    (h : parseGroup1 cs = some (g, r)) : g.data.head? ≠ some '-' := by
  unfold parseGroup1 at h
  split at h
  · exact absurd h (by simp)
  · next c rest =>
    split at h
    · next hq =>
      rw [← (Prod.mk.inj (Option.some.inj h)).1]
      subst hq
      decide
    · split at h
      · next hd =>
        have htw : List.takeWhile Char.isDigit (c :: rest)
            = c :: List.takeWhile Char.isDigit rest := by
          rw [List.takeWhile_cons, if_pos hd]
        split at h
        · next r2 heq =>
          rw [← (Prod.mk.inj (Option.some.inj h)).1]
          intro hc
          have hc2 : c = '-' := by
            have h2 : (String.mk (List.takeWhile Char.isDigit (c :: rest)
                ++ '.' :: List.takeWhile Char.isDigit r2)).data.head?
                = some '-' := hc
            rw [htw] at h2
            simpa using h2
          rw [hc2] at hd
          exact absurd hd (by decide)
        · rw [← (Prod.mk.inj (Option.some.inj h)).1]
          intro hc
          have hc2 : c = '-' := by
            have h2 : (String.mk (List.takeWhile Char.isDigit (c :: rest))).data.head?
                = some '-' := hc
            rw [htw] at h2
            simpa using h2
          rw [hc2] at hd
          exact absurd hd (by decide)
      · split at h
        · next hdot =>
          split at h
          · exact absurd h (by simp)
          · rw [← (Prod.mk.inj (Option.some.inj h)).1]
            simp
        · exact absurd h (by simp)

/-- The text captured by group 2 never starts with a minus sign: it is made
of digits and at most one dot. -/
theorem parseGroup2_head (cs : List Char) :
    (parseGroup2 cs).data.head? ≠ some '-' := by
  unfold parseGroup2
  have hdig : ∀ a t, List.takeWhile Char.isDigit cs = a :: t → a ≠ '-' := by
    intro a t htw hc
    have ha : Char.isDigit a = true := by
      apply List.mem_takeWhile_imp (l := cs) (p := Char.isDigit)
      rw [htw]
      exact List.mem_cons_self a t
    rw [hc] at ha
    exact absurd ha (by decide)
  split
  · next r2 heq =>
    cases htw : List.takeWhile Char.isDigit cs with
    | nil => simp [htw]
    | cons a t =>
      intro hc
      exact hdig a t htw (by simpa [htw] using hc)
  · cases htw : List.takeWhile Char.isDigit cs with
    | nil => simp [htw]
    | cons a t =>
      intro hc
      exact hdig a t htw (by simpa [htw] using hc)

/-- Neither captured group of the estimate pattern starts with a minus
sign. -/
theorem matchEstimate_heads (name : String) (g1 : String) (g2 : Option String)
    (h : matchEstimate name = some (g1, g2)) :
    g1.data.head? ≠ some '-' ∧
      ∀ s2, g2 = some s2 → s2.data.head? ≠ some '-' := by
  unfold matchEstimate at h
  split at h
  · next rest heq =>
    split at h
    · exact absurd h (by simp)
    · next g1x rest2 hp =>
      split at h
      · have hinj := Option.some.inj h
        refine ⟨?_, ?_⟩
        · rw [← (Prod.mk.inj hinj).1]
          exact parseGroup1_head _ _ _ hp
        · intro s2 hs2
          rw [← (Prod.mk.inj hinj).2] at hs2
          exact absurd hs2 (by simp)
      · have hinj := Option.some.inj h
        refine ⟨?_, ?_⟩
        · rw [← (Prod.mk.inj hinj).1]
          exact parseGroup1_head _ _ _ hp
        · intro s2 hs2
          rw [← (Prod.mk.inj hinj).2] at hs2
          rw [← Option.some.inj hs2]
          exact parseGroup2_head _
  · exact absurd h (by simp)

/-- `float(g or fallback)` yields a non-negative value when the fallback is
non-negative and the group does not start with a minus sign. -/
theorem floatOrFallback_nonneg (g : Option String) (fb v : ℚ)
    (hfb : 0 ≤ fb) (hhead : ∀ s2, g = some s2 → s2.data.head? ≠ some '-')
    (h : floatOrFallback g fb = .ok v) : 0 ≤ v := by
  unfold floatOrFallback at h
  split at h
  · rw [← Except.ok.inj h]; exact hfb
  · next s2 =>
    split at h
    · rw [← Except.ok.inj h]; exact hfb
    · unfold pyFloat at h
      split at h
      · next q hq =>
        rw [← Except.ok.inj h]
        exact parsePyFloat_nonneg s2 q (hhead s2 rfl) hq
      · exact absurd h (by simp)

/-- The pts-tag fallback loop keeps the estimate pair non-negative when the
starting pair is non-negative and no pts tag carries a negative prefix. -/
theorem foldlM_ptsTagStep_nonneg (tags : List String) :
    ∀ (acc : ℚ × ℚ) (e a : ℚ),
      0 ≤ acc.1 → 0 ≤ acc.2 →
      (∀ t ∈ tags, endsWithPts t = true →
        ∀ v : ℚ, parsePyFloat (dropLast3 t) = some v → 0 ≤ v) →
      tags.foldlM ptsTagStep acc = .ok (e, a) → 0 ≤ e ∧ 0 ≤ a := by
  induction tags with
  | nil =>
    intro acc e a h1 h2 _ h
    simp only [List.foldlM_nil] at h
    rw [Except.ok.inj h] at h1 h2
    exact ⟨h1, h2⟩
  | cons t ts ih =>
    intro acc e a h1 h2 hptags h
    rw [List.foldlM_cons] at h
    by_cases he : endsWithPts t
    · rcases hv : parsePyFloat (dropLast3 t) with _ | v
      · have hstep : ptsTagStep acc t = .error .valueError := by
          simp [ptsTagStep, if_pos he, pyFloat, hv, Except.bind]
        rw [hstep] at h
        have h2e : (Except.error PyError.valueError : Except PyError (ℚ × ℚ))
            = .ok (e, a) := h
        exact absurd h2e (by simp)
      · have hstep : ptsTagStep acc t = .ok (v, v) := by
          simp [ptsTagStep, if_pos he, pyFloat, hv, Except.bind]
        rw [hstep] at h
        have h2f : ts.foldlM ptsTagStep (v, v) = .ok (e, a) := h
        have hvpos : 0 ≤ v := hptags t (List.mem_cons_self t ts) he v hv
        exact ih (v, v) e a hvpos hvpos
          (fun t2 ht2 => hptags t2 (List.mem_cons_of_mem t ht2)) h2f
    · have hstep : ptsTagStep acc t = .ok acc := by
        simp [ptsTagStep, if_neg he]
      rw [hstep] at h
      have h2f : ts.foldlM ptsTagStep acc = .ok (e, a) := h
      exact ih acc e a h1 h2
        (fun t2 ht2 => hptags t2 (List.mem_cons_of_mem t ht2)) h2f

/-- C8 (amended): the estimate pair is non-negative provided the configured
default estimate is non-negative and no pts tag carries a negative numeric
prefix. (Values derived from the title pattern are always non-negative; a
negative default estimate or a negative pts-tag prefix such as "-3pts" flows
through unchanged, so the unconditional claim fails.) -/
theorem extract_nonneg (name : String) (tags : List String) (completed : Bool)
    (d e a : ℚ) (hd : 0 ≤ d)
    (htags : ∀ t ∈ tags, endsWithPts t = true →
      ∀ v : ℚ, parsePyFloat (dropLast3 t) = some v → 0 ≤ v)
    (h : extract name tags completed d = .ok (e, a)) :
    0 ≤ e ∧ 0 ≤ a := by
  unfold extract at h
  split at h
  · next g1 g2 hm =>
    have hheads := matchEstimate_heads name g1 g2 hm
    rcases hE : (if g1 = "?" then Except.ok (0:ℚ) else pyFloat g1) with eE | vE
    · rw [hE] at h
      exact absurd h (by simp [Except.bind])
    · rw [hE] at h
      have hEpos : 0 ≤ vE := by
        by_cases hq : g1 = "?"
        · rw [if_pos hq] at hE
          rw [← Except.ok.inj hE]
        · rw [if_neg hq] at hE
          unfold pyFloat at hE
          split at hE
          · next q hq2 =>
            rw [← Except.ok.inj hE]
            exact parsePyFloat_nonneg g1 q hheads.1 hq2
          · exact absurd hE (by simp)
      have h2 : (if completed then floatOrFallback g2 vE
          else floatOrFallback g2 0).bind
          (fun actual => Except.ok (vE, actual)) = .ok (e, a) := h
      rcases hA : (if completed then floatOrFallback g2 vE
          else floatOrFallback g2 0) with eA | vA
      · rw [hA] at h2
        exact absurd h2 (by simp [Except.bind])
      · rw [hA] at h2
        have h3 : (Except.ok (vE, vA) : Except PyError (ℚ × ℚ)) = .ok (e, a) := h2
        have hpair := Except.ok.inj h3
        have hApos : 0 ≤ vA := by
          cases completed with
          | true =>
            rw [if_pos rfl] at hA
            exact floatOrFallback_nonneg g2 vE vA hEpos hheads.2 hA
          | false =>
            rw [if_neg (by simp)] at hA
            exact floatOrFallback_nonneg g2 0 vA le_rfl hheads.2 hA
        constructor
        · rw [← (Prod.mk.inj hpair).1]; exact hEpos
        · rw [← (Prod.mk.inj hpair).2]; exact hApos
  · exact foldlM_ptsTagStep_nonneg tags (d, d) e a hd hd htags h

/-- The pts-tag fallback loop, which has no `break`, ends with the value of
the LAST pts-suffixed tag (each match overwrites the previous one); when no
tag matches, the accumulator is returned unchanged. -/
theorem foldlM_ptsTagStep_last (tags : List String) :
    ∀ acc : ℚ × ℚ,
      (∀ t ∈ tags, endsWithPts t = true → (parsePyFloat (dropLast3 t)).isSome) →
      tags.foldlM ptsTagStep acc
        = .ok (match (tags.filter (fun t => endsWithPts t)).getLast? with
               | none => acc
               | some t => ((parsePyFloat (dropLast3 t)).getD 0,
                            (parsePyFloat (dropLast3 t)).getD 0)) := by
  induction tags with
  | nil => intro acc _; rfl
  | cons t ts ih =>
    intro acc h
    rw [List.foldlM_cons]
    by_cases he : endsWithPts t
    · have hsome := h t (List.mem_cons_self t ts) he
      rcases hv : parsePyFloat (dropLast3 t) with _ | v
      · rw [hv] at hsome
        exact absurd hsome (by simp)
      · have hstep : ptsTagStep acc t = .ok (v, v) := by
          simp [ptsTagStep, if_pos he, pyFloat, hv, Except.bind]
        rw [hstep]
        have hbind : ((Except.ok (v, v) : Except PyError (ℚ × ℚ)) >>=
            fun x => ts.foldlM ptsTagStep x) = ts.foldlM ptsTagStep (v, v) := rfl
        rw [hbind, ih (v, v) (fun t2 ht2 => h t2 (List.mem_cons_of_mem t ht2))]
        rw [List.filter_cons_of_pos he]
        cases hl : ts.filter (fun t2 => endsWithPts t2) with
        | nil => simp [hv]
        | cons b l2 =>
          rw [List.getLast?_cons_cons]
          cases hgl : (b :: l2).getLast? with
          | none => simp at hgl
          | some x => rfl
    · have hstep : ptsTagStep acc t = .ok acc := by
        simp [ptsTagStep, if_neg he]
      rw [hstep]
      have hbind : ((Except.ok acc : Except PyError (ℚ × ℚ)) >>=
          fun x => ts.foldlM ptsTagStep x) = ts.foldlM ptsTagStep acc := rfl
      rw [hbind, ih acc (fun t2 ht2 => h t2 (List.mem_cons_of_mem t ht2))]
      rw [List.filter_cons_of_neg (by simp [he])]

/-- C4 (amended): when the title does not match the estimate pattern, a task
whose tags include at least one name ending in "pts" gets
estimated = actual = the numeric prefix of the LAST such tag in the tag
sequence (the loop has no `break`, so later matches overwrite earlier ones);
with no such tag the configured default is kept. -/
theorem extract_pts_tag_fallback (name : String) (tags : List String)
    (completed : Bool) (d : ℚ)
    (hm : matchEstimate name = none)
    (hp : ∀ t ∈ tags, endsWithPts t = true →
      (parsePyFloat (dropLast3 t)).isSome) :
    extract name tags completed d
      = .ok (match (tags.filter (fun t => endsWithPts t)).getLast? with
             | none => (d, d)
             | some t => ((parsePyFloat (dropLast3 t)).getD 0,
                          (parsePyFloat (dropLast3 t)).getD 0)) := by
  have hfold := foldlM_ptsTagStep_last tags (d, d) hp
  unfold extract
  rw [hm]
  exact hfold

/-- C1 (amended): for a title matching the estimate pattern, extraction
returns estimated = the parsed first group (0 for the unknown marker "?")
and actual = the parsed second group when one is present and parseable (a
matched but EMPTY second group counts as absent), otherwise estimated when
the task is completed and 0 when it is not. (When the matched second group
is non-empty yet unparseable — the lone dot "." the pattern can capture —
`float` raises a ValueError instead of returning, which the counterexample
records; such titles are excluded here.) -/
theorem extract_title_pattern (name : String) (tags : List String)
    (completed : Bool) (d : ℚ) (g1 : String) (g2 : Option String) (e a : ℚ)
    (hm : matchEstimate name = some (g1, g2))
    (he : (if g1 = "?" then some 0 else parsePyFloat g1) = some e)
    (ha : (match g2 with
           | none => some (if completed then e else 0)
           | some s2 =>
             if s2 = "" then some (if completed then e else 0)
             else parsePyFloat s2) = some a) :
    extract name tags completed d = .ok (e, a) := by
  have hE : (if g1 = "?" then Except.ok (0:ℚ) else pyFloat g1) = .ok e := by
    by_cases hq : g1 = "?"
    · rw [if_pos hq] at he ⊢
      rw [← Option.some.inj he]
    · rw [if_neg hq] at he ⊢
      unfold pyFloat
      rw [he]
  have hA : (if completed then floatOrFallback g2 e
      else floatOrFallback g2 0) = .ok a := by
    have hfb : floatOrFallback g2 (if completed then e else 0) = .ok a := by
      unfold floatOrFallback
      cases g2 with
      | none =>
        dsimp only at ha ⊢
        rw [← Option.some.inj ha]
      | some s2 =>
        dsimp only at ha ⊢
        by_cases hs : s2 = ""
        · rw [if_pos hs] at ha ⊢
          rw [← Option.some.inj ha]
        · rw [if_neg hs] at ha ⊢
          unfold pyFloat
          rw [ha]
    cases completed with
    | true => rw [if_pos rfl]; simpa using hfb
    | false => rw [if_neg (by simp)]; simpa using hfb
  unfold extract
  rw [hm]
  dsimp only
  rw [hE]
  have hbind : (Except.ok e : Except PyError ℚ).bind
      (fun estimated => (if completed then floatOrFallback g2 estimated
        else floatOrFallback g2 0).bind
        (fun actual => Except.ok (estimated, actual)))
      = (if completed then floatOrFallback g2 e
        else floatOrFallback g2 0).bind
        (fun actual => Except.ok (e, actual)) := rfl
  rw [hbind, hA]
  rfl

/-- A raw task with all its optional fields absent. -/
def stripOptional (t : RawTask) : RawTask :=
  { t with assignee := none, due_on := none, completed_at := none }

/-- C9: normalization never fails because an optional field is missing —
with assignee, due date and completion date all absent it succeeds exactly
when it succeeds with them present, and the absent fields normalize to
null — and the ASCII sanitizer replaces each non-representable character
with a placeholder in place (same length, all output representable,
representable characters kept). -/
theorem normalize_optional_fields_and_sanitize (d : ℚ) (t : RawTask)
    (s : String) :
    ((normalizeTask d (stripOptional t)).toOption.map NormalizedTaskRow.assignee
      = (normalizeTask d t).toOption.map (fun _ => (none : Option String))) ∧
    ((normalizeTask d (stripOptional t)).toOption.map NormalizedTaskRow.due_on
      = (normalizeTask d t).toOption.map (fun _ => (none : Option ℤ))) ∧
    ((normalizeTask d (stripOptional t)).toOption.map NormalizedTaskRow.completed_at
      = (normalizeTask d t).toOption.map (fun _ => (none : Option ℤ))) ∧
    (sanitizeAscii s).length = s.length ∧
    (sanitizeAscii s).data.all (fun c => decide (c.toNat ≤ 127)) = true ∧
    (List.zip s.data (sanitizeAscii s).data).all
      (fun p => if p.1.toNat ≤ 127 then p.2 == p.1 else p.2 == '?') = true := by
  have hsplit : ∀ (P : Except PyError NormalizedTaskRow →
      Except PyError NormalizedTaskRow → Prop),
      (∀ err, P (.error err) (.error err)) →
      (∀ p : ℚ × ℚ, P
        (.ok { assignee := (none : Option String).map sanitizeAscii,
               name := sanitizeAscii t.name, estimated := p.1, actual := p.2,
               created_at := t.created_at, due_on := none,
               completed_at := none })
        (.ok { assignee := t.assignee.map sanitizeAscii,
               name := sanitizeAscii t.name, estimated := p.1, actual := p.2,
               created_at := t.created_at, due_on := t.due_on,
               completed_at := t.completed_at })) →
      P (normalizeTask d (stripOptional t)) (normalizeTask d t) := by
    intro P herr hok
    unfold normalizeTask stripOptional
    dsimp only
    cases hx : extract (sanitizeAscii t.name) t.tags t.completed d with
    | error err => exact herr err
    | ok p => exact hok p
  refine ⟨?_, ?_, ?_, ?_, ?_, ?_⟩
  · exact hsplit (fun x y => x.toOption.map NormalizedTaskRow.assignee
      = y.toOption.map (fun _ => (none : Option String)))
      (fun _ => rfl) (fun _ => rfl)
  · exact hsplit (fun x y => x.toOption.map NormalizedTaskRow.due_on
      = y.toOption.map (fun _ => (none : Option ℤ)))
      (fun _ => rfl) (fun _ => rfl)
  · exact hsplit (fun x y => x.toOption.map NormalizedTaskRow.completed_at
      = y.toOption.map (fun _ => (none : Option ℤ)))
      (fun _ => rfl) (fun _ => rfl)
  · show ((s.data.map (fun c => if c.toNat ≤ 127 then c else '?')).length
      = s.length)
    rw [List.length_map]
    rfl
  · apply List.all_eq_true.mpr
    intro c hc
    rcases List.mem_map.mp hc with ⟨c0, _, rfl⟩
    by_cases h : c0.toNat ≤ 127
    · simp [h]
    · simp [h]
  · unfold sanitizeAscii
    induction s.data with
    | nil => rfl
    | cons c cs ih =>
      simp only [List.map_cons, List.zip_cons_cons, List.all_cons, ih,
        Bool.and_true]
      by_cases h : c.toNat ≤ 127 <;> simp [h]

/-- C10: when a JSON input file is supplied but no API key comes from the
-k flag or the ASANA_API_KEY environment variable (absent or empty, which
Python treats alike), the run exits with status 2 whatever the task list is
— no task is processed. -/
theorem missing_api_key_exits (args : CliArgs) (envKey : Option String)
    (d : ℚ) (tasks : List RawTask)
    (hin : truthy args.input = true)
    (hkey : truthy args.key = false)
    (henv : truthy envKey = false) :
    runScript args envKey d tasks = .exit 2 := by
  unfold runScript startupChecks
  simp [hin, hkey, henv]

/-- C1 counterexample: "[3:.] Fix" matches the estimate pattern with a
matched, non-empty, unparseable second group "." (a lone dot), and
extraction raises a ValueError instead of returning a pair. -/
theorem extract_title_pattern_cex :
    matchEstimate "[3:.] Fix" = some ("3", some ".") ∧
    extract "[3:.] Fix" [] true 0 = .error .valueError :=
  ⟨by decide, by decide⟩

/-- C1 witness: a completed task titled "[3:2] Fix bug" yields (3, 2). -/
theorem extract_title_pattern_witness :
    matchEstimate "[3:2] Fix bug" = some ("3", some "2") ∧
    ((if "3" = "?" then some 0 else parsePyFloat "3") = some (3:ℚ)) ∧
    ((match (some "2" : Option String) with
      | none => some (if true = true then (3:ℚ) else 0)
      | some s2 =>
        if s2 = "" then some (if true = true then (3:ℚ) else 0)
        else parsePyFloat s2) = some (2:ℚ)) ∧
    extract "[3:2] Fix bug" [] true 0 = .ok (3, 2) :=
  ⟨by decide, by decide, by decide,
    extract_title_pattern "[3:2] Fix bug" [] true 0 "3" (some "2") 3 2
      (by decide) (by decide) (by decide)⟩

/-- C2 counterexample: one task of 3 points completed ON the sprint start
date; the start row already shows remaining-estimated 0, not the total 3
the claim asserts for the first day. -/
theorem burndown_remaining_cex :
    buildBurndown 0 3 10 3 3 [] (fun _ => 0)
        (fun dt => if dt = 0 then 3 else 0) (fun _ => 0) (fun _ _ => 0)
      = .ok [⟨0, some 0, some 3, 3, []⟩, ⟨1, some 0, some 3, 2, []⟩,
             ⟨2, some 0, some 3, 1, []⟩, ⟨3, some 0, some 3, 0, []⟩] := by
  decide

/-- C2 witness: a two-day sprint with 4 points total and 2 points completed
on the middle date, observed after the sprint end. -/
theorem burndown_remaining_witness :
    ((0:ℤ) < 2) ∧ ((2:ℤ) ≤ 5) ∧
    (∃ rows, buildBurndown 0 2 5 4 4 [] (fun _ => 0)
        (fun dt => if dt = 1 then (2:ℚ) else 0) (fun _ => 0) (fun _ _ => 0)
        = .ok rows ∧
      rows.length = ((2:ℤ) - 0).toNat + 1 ∧
      (rows[0]?.map BurndownRow.estimatedRemaining)
        = some (some (4 - (if (0:ℤ) = 1 then (2:ℚ) else 0))) ∧
      (∀ i : ℕ, i ≤ ((2:ℤ) - 0).toNat →
        (rows[i]?.map BurndownRow.estimatedRemaining)
          = some (some (4 - ((dateRange 0 (0 + (i:ℤ))).map
              (fun dt => if dt = 1 then (2:ℚ) else 0)).sum))) ∧
      (∀ i : ℕ, i < ((2:ℤ) - 0).toNat →
        ∃ q : ℚ, (rows[i]?.map BurndownRow.estimatedRemaining)
            = some (some q) ∧
          (rows[i+1]?.map BurndownRow.estimatedRemaining)
            = some (some (q - (if (0 + (i:ℤ) + 1) = 1 then (2:ℚ) else 0)))) ∧
      (rows[((2:ℤ) - 0).toNat]?.map BurndownRow.estimatedRemaining)
        = some (some (4 - ((dateRange 0 2).map
            (fun dt => if dt = 1 then (2:ℚ) else 0)).sum))) :=
  ⟨by decide, by decide,
    burndown_remaining 0 2 5 4 4 [] (fun _ => 0)
      (fun dt => if dt = 1 then (2:ℚ) else 0) (fun _ => 0) (fun _ _ => 0)
      (by decide) (by decide)⟩

/-- C3 witness: a two-day sprint with 4 total points; ideal line 4, 2, 0. -/
theorem burndown_ideal_witness :
    ((0:ℤ) + 1 ≤ 2) ∧ ((0:ℚ) ≤ 4) ∧
    (∃ rows, buildBurndown 0 2 9 4 4 [] (fun _ => 0) (fun _ => 0)
        (fun _ => 0) (fun _ _ => 0) = .ok rows ∧
      rows.length = ((2:ℤ) - 0).toNat + 1 ∧
      (rows[0]?.map BurndownRow.ideal) = some 4 ∧
      (∀ i : ℕ, 1 ≤ i → i ≤ ((2:ℤ) - 0).toNat →
        (rows[i]?.map BurndownRow.ideal)
          = some ((((2:ℤ) - 0 - (i:ℤ) : ℤ) : ℚ)
              * (4 / (((2:ℤ) - 0 : ℤ) : ℚ)))) ∧
      (∀ i : ℕ, i < ((2:ℤ) - 0).toNat → ∀ a b : BurndownRow,
        rows[i]? = some a → rows[i+1]? = some b → b.ideal ≤ a.ideal)) :=
  ⟨by decide, by decide,
    burndown_ideal 0 2 9 4 4 [] (fun _ => 0) (fun _ => 0) (fun _ => 0)
      (fun _ _ => 0) (by decide) (by decide)⟩

/-- C4 counterexample: with tags ["2pts", "5pts"] and no bracket annotation
the code returns (5, 5) — the LAST pts tag — not (2, 2) from the first. -/
theorem extract_pts_tag_fallback_cex :
    extract "Fix" ["2pts", "5pts"] false 0 = .ok (5, 5) ∧
    extract "Fix" ["2pts", "5pts"] false 0 ≠ .ok (2, 2) :=
  ⟨by decide, by decide⟩

/-- C4 witness: the fallback applied to ["2pts", "5pts"]. -/
theorem extract_pts_tag_fallback_witness :
    matchEstimate "Fix things" = none ∧
    (∀ t ∈ ["2pts", "5pts"], endsWithPts t = true →
      (parsePyFloat (dropLast3 t)).isSome) ∧
    extract "Fix things" ["2pts", "5pts"] false 0
      = .ok (match ((["2pts", "5pts"].filter
            (fun t => endsWithPts t)).getLast?) with
             | none => ((0:ℚ), (0:ℚ))
             | some t => ((parsePyFloat (dropLast3 t)).getD 0,
                          (parsePyFloat (dropLast3 t)).getD 0)) :=
  ⟨by decide, by decide,
    extract_pts_tag_fallback "Fix things" ["2pts", "5pts"] false 0
      (by decide) (by decide)⟩

/-- C5 counterexample: a zero-length sprint makes the burndown computation
raise ZeroDivisionError, and a zero total estimate makes the completion
percentage raise ZeroDivisionError — both uncaught, neither guarded. -/
theorem division_by_zero_unguarded_cex :
    buildBurndown 0 0 5 1 1 [] (fun _ => 0) (fun _ => 0) (fun _ => 0)
        (fun _ _ => 0) = .error .zeroDivisionError ∧
    completedPercentage 1 0 = .error .zeroDivisionError :=
  ⟨by decide, by decide⟩

/-- C6 counterexample: with end before start the builder reports no error at
all and returns an empty series, and with end = start it raises
ZeroDivisionError instead of producing the single row. -/
theorem burndown_row_per_day_cex :
    buildBurndown 1 0 5 1 1 [] (fun _ => 0) (fun _ => 0) (fun _ => 0)
        (fun _ _ => 0) = .ok [] ∧
    buildBurndown 0 0 5 1 1 [] (fun _ => 0) (fun _ => 0) (fun _ => 0)
        (fun _ _ => 0) = .error .zeroDivisionError :=
  ⟨by decide, by decide⟩

/-- C7 counterexample: with one recognized tag, the rows after today are
`[day, None, None, ideal]` with NO per-tag cell ([], not [none]), so the
series the claim predicts (per-tag cells emitted as null) is not what the
code produces. -/
theorem burndown_future_rows_cex :
    buildBurndown 0 2 0 2 2 ["P0"] (fun _ => 1) (fun _ => 0) (fun _ => 0)
        (fun _ _ => 0)
      = .ok [⟨0, some 2, some 2, 2, [some 1]⟩, ⟨1, none, none, 1, []⟩,
             ⟨2, none, none, 0, []⟩] ∧
    buildBurndown 0 2 0 2 2 ["P0"] (fun _ => 1) (fun _ => 0) (fun _ => 0)
        (fun _ _ => 0)
      ≠ .ok [⟨0, some 2, some 2, 2, [some 1]⟩, ⟨1, none, none, 1, [none]⟩,
             ⟨2, none, none, 0, [none]⟩] :=
  ⟨by decide, by decide⟩

/-- C7 witness: sprint 0..2 observed on day 0; the day-1 row (strictly after
today) is `⟨1, none, none, 1, []⟩`. -/
theorem burndown_future_rows_witness :
    (buildBurndown 0 2 0 2 2 ["P0"] (fun _ => 1) (fun _ => 0) (fun _ => 0)
        (fun _ _ => 0)
      = .ok [⟨0, some 2, some 2, 2, [some 1]⟩, ⟨1, none, none, 1, []⟩,
             ⟨2, none, none, 0, []⟩]) ∧
    (([⟨0, some 2, some 2, 2, [some 1]⟩, ⟨1, none, none, 1, []⟩,
       ⟨2, none, none, 0, []⟩] : List BurndownRow)[1]?
      = some ⟨1, none, none, 1, []⟩) ∧
    ((⟨1, none, none, 1, []⟩ : BurndownRow).date = 0 + ((1:ℕ):ℤ) ∧
     (⟨1, none, none, 1, []⟩ : BurndownRow).ideal
        = (if (1:ℕ) = 0 then 2
           else (((2:ℤ) - 0 - ((1:ℕ):ℤ) : ℤ) : ℚ)
             * (2 / (((2:ℤ) - 0 : ℤ) : ℚ))) ∧
     ((0:ℤ) < (⟨1, none, none, 1, []⟩ : BurndownRow).date →
        (⟨1, none, none, 1, []⟩ : BurndownRow).estimatedRemaining = none ∧
        (⟨1, none, none, 1, []⟩ : BurndownRow).actualRemaining = none ∧
        (⟨1, none, none, 1, []⟩ : BurndownRow).tagCells = []) ∧
     ((⟨1, none, none, 1, []⟩ : BurndownRow).date ≤ 0 →
        (⟨1, none, none, 1, []⟩ : BurndownRow).estimatedRemaining
          = some (2 - ((dateRange 0 (0 + ((1:ℕ):ℤ))).map
              (fun _ => (0:ℚ))).sum) ∧
        (⟨1, none, none, 1, []⟩ : BurndownRow).actualRemaining
          = some (2 - ((dateRange 0 (0 + ((1:ℕ):ℤ))).map
              (fun _ => (0:ℚ))).sum) ∧
        (⟨1, none, none, 1, []⟩ : BurndownRow).tagCells
          = ["P0"].map (fun _ => some ((1:ℚ)
              - ((dateRange 0 (0 + ((1:ℕ):ℤ))).map
                  (fun _ => (0:ℚ))).sum)))) :=
  ⟨by decide, by decide,
    burndown_future_rows 0 2 0 2 2 ["P0"] (fun _ => 1) (fun _ => 0)
      (fun _ => 0) (fun _ _ => 0)
      [⟨0, some 2, some 2, 2, [some 1]⟩, ⟨1, none, none, 1, []⟩,
       ⟨2, none, none, 0, []⟩] 1 ⟨1, none, none, 1, []⟩
      (by decide) (by decide)⟩

/-- C8 counterexample: a negative configured default estimate flows through
unchanged for a task with no annotation, and a "-3pts" tag yields a
negative pair, so the pair is not always non-negative. -/
theorem extract_nonneg_cex :
    extract "Fix things" [] false (-1) = .ok (-1, -1) ∧
    extract "Fix" ["-3pts"] false 0 = .ok (-3, -3) :=
  ⟨by decide, by decide⟩

/-- C8 witness: with a non-negative default and no tags, the pair is
non-negative. -/
theorem extract_nonneg_witness :
    ((0:ℚ) ≤ 0) ∧
    (∀ t ∈ ([] : List String), endsWithPts t = true →
      ∀ v : ℚ, parsePyFloat (dropLast3 t) = some v → 0 ≤ v) ∧
    (extract "Fix things" [] false 0 = .ok (0, 0)) ∧
    ((0:ℚ) ≤ 0 ∧ (0:ℚ) ≤ 0) :=
  ⟨le_rfl, by simp, by decide,
    extract_nonneg "Fix things" [] false 0 0 0 le_rfl (by simp) (by decide)⟩

/-- C10 witness: input file given, no -k key, no environment key: the run
exits with status 2 without touching the one-task list. -/
theorem missing_api_key_exits_witness :
    truthy (some "project.json") = true ∧ truthy (none : Option String) = false ∧
    runScript ⟨some "project.json", none, none⟩ none 0
        [⟨"[3] Fix", false, 0, none, none, none, []⟩] = .exit 2 :=
  ⟨by decide, by decide,
    missing_api_key_exits ⟨some "project.json", none, none⟩ none 0
      [⟨"[3] Fix", false, 0, none, none, none, []⟩]
      (by decide) (by decide) (by decide)⟩

end AsanaTools
